import Mathlib

/-!
Shallow embedding of `mediaflow_proxy/utils/cache_utils.py` and
`mediaflow_proxy/mpd_processor.py`.

Conventions of the embedding:
* Python `float` times, TTLs and MPD update periods are modelled by `ℚ`
  (no claim below depends on binary rounding of time values); the
  non-finite float values that can occur as segment `extinf` entries are
  modelled explicitly by the type `ExtV` (finite / inf / nan / non-number).
* `bytes` payloads are modelled by `List Nat`.
* Python `dict` / `collections.OrderedDict` are modelled by association
  lists in insertion order (head = oldest insertion).  Assignment to an
  existing key updates the value in place and keeps the key's position —
  exactly the CPython semantics of `d[k] = v` for both `dict` and
  `OrderedDict`; `popitem(last=False)` pops the head.
* Exceptions are modelled with `Except`; `try/except` blocks become
  pattern matches on the `Except` value.
* The filesystem under the cache directory is modelled as an association
  list from file name to file content; external I/O that can fail
  (writing the cache file) takes an explicit success flag.
-/

namespace Mediaflow

/-- Python dict lookup `l[k]` / `k in l` on an association list. -/
def dictGet {β : Type} (l : List (String × β)) (k : String) : Option β :=
  match l with
  | [] => none
  | p :: rest => if p.1 = k then some p.2 else dictGet rest k

/-- Python `k in d`. -/
def dictHas {β : Type} (l : List (String × β)) (k : String) : Bool :=
  (dictGet l k).isSome

/-- CPython `d[k] = v`: update in place when `k` is present (keeping the
key's position), append at the end otherwise. -/
def dictAssign {β : Type} (l : List (String × β)) (k : String) (v : β) :
    List (String × β) :=
  match l with
  | [] => [(k, v)]
  | p :: rest =>
    if p.1 = k then (k, v) :: rest else p :: dictAssign rest k v

/-- Python `d.pop(k, None)` (the removal part). -/
def dictRemove {β : Type} (l : List (String × β)) (k : String) :
    List (String × β) :=
  match l with
  | [] => []
  | p :: rest => if p.1 = k then rest else p :: dictRemove rest k

/-- `CacheEntry` of `cache_utils.py` (lines 26–34). -/
structure CacheEntry where
  data : List Nat
  expires_at : ℚ
  access_count : Nat
  last_access : ℚ
  size : Nat
  deriving Repr, DecidableEq

/-- `LRUMemoryCache` state (`cache_utils.py` lines 37–44): `cache` is the
`OrderedDict` (head = least recently used), `current_size` the running
`_current_size` counter (an `Int`: the code can drive it negative). -/
structure LRUMemoryCache where
  maxsize : Nat
  cache : List (String × CacheEntry)
  current_size : Int
  deriving Repr, DecidableEq

namespace LRUMemoryCache

/-- Fresh cache, as `__init__` builds it. -/
def empty (maxsize : Nat) : LRUMemoryCache :=
  { maxsize := maxsize, cache := [], current_size := 0 }

/-- `LRUMemoryCache.get` (lines 46–59), with the current time passed in
for `time.time()`.  Returns the Python return value and the state after
the call. -/
def get (c : LRUMemoryCache) (key : String) (now : ℚ) :
    Option CacheEntry × LRUMemoryCache :=
  match dictGet c.cache key with
  | none => (none, c)
  | some entry =>
    -- `entry = self._cache.pop(key)`: remove, then re-insert on a hit
    let popped := dictRemove c.cache key
    if now < entry.expires_at then
      let entry2 := { entry with
        access_count := entry.access_count + 1, last_access := now }
      (some entry2, { c with cache := popped ++ [(key, entry2)] })
    else
      (none, { c with
                 cache := popped
                 current_size := c.current_size - (entry.size : Int) })

/-- The eviction loop of `LRUMemoryCache.set` (lines 67–70): while
`current_size + need > maxsize` and the dict is non-empty, pop the head
(least recent) and subtract its size. -/
def evictLoop (cache : List (String × CacheEntry)) (cs : Int) (need : Int)
    (maxsize : Nat) : List (String × CacheEntry) × Int :=
  match cache with
  | [] => ([], cs)
  | (_, e) :: rest =>
    if cs + need > (maxsize : Int) then
      evictLoop rest (cs - (e.size : Int)) need maxsize
    else
      (cache, cs)

/-- `LRUMemoryCache.set` (lines 61–73).  When the key is present its old
size is subtracted but the old entry is NOT removed from the dict; the
eviction loop may therefore pop that same stale entry again.  The final
`self._cache[key] = entry` is a plain dict assignment (in-place update
when the key survived eviction). -/
def set (c : LRUMemoryCache) (key : String) (entry : CacheEntry) :
    LRUMemoryCache :=
  let cs0 : Int :=
    match dictGet c.cache key with
    | some old => c.current_size - (old.size : Int)
    | none => c.current_size
  let ev := evictLoop c.cache cs0 (entry.size : Int) c.maxsize
  { c with
      cache := dictAssign ev.1 key entry
      current_size := ev.2 + (entry.size : Int) }

/-- `LRUMemoryCache.remove` (lines 75–79). -/
def remove (c : LRUMemoryCache) (key : String) : LRUMemoryCache :=
  match dictGet c.cache key with
  | none => c
  | some entry =>
    { c with
        cache := dictRemove c.cache key
        current_size := c.current_size - (entry.size : Int) }

/-- Sum of the `size` fields of all entries actually stored. -/
def sizeSum (c : LRUMemoryCache) : Int :=
  (c.cache.map fun p => (p.2.size : Int)).sum

/-- The key of the most-recent (last) slot of the order. -/
def lastKey (c : LRUMemoryCache) : Option String :=
  (c.cache.map Prod.fst).getLast?

/-- The key the next eviction would pop (`popitem(last=False)`). -/
def headKey (c : LRUMemoryCache) : Option String :=
  (c.cache.map Prod.fst).head?

end LRUMemoryCache

/-- `HybridCache._get_md5_hash` calls `hashlib.md5(key.encode()).hexdigest()`.
`hashlib` is outside the repository; MD5 is modelled as an injective tagging
function.  The development only uses that the hash is deterministic and that
none of the concrete keys appearing below equals its own hash — true of real
MD5, whose output is a 32-character hex digest. -/
def md5Hex (s : String) : String := "md5-" ++ s

/-- Content of one file of the cache directory, as `HybridCache.get` decodes
it: either a well-formed record (8-byte length, JSON metadata, payload) or a
`corrupt` one, on which the metadata parse (or a truncated read) raises. -/
inductive FileData
  | good (expires_at : ℚ) (access_count : Nat) (data : List Nat)
  | corrupt
  deriving Repr, DecidableEq

/-- `HybridCache` state (`cache_utils.py` lines 82–99): the memory tier and
the cache directory, the latter as a map from file name to content. -/
structure HybridCache where
  ttl : ℚ
  memory_cache : LRUMemoryCache
  files : List (String × FileData)
  deriving Repr, DecidableEq

namespace HybridCache

/-- Fresh hybrid cache (`__init__`, empty cache directory). -/
def empty (ttl : ℚ) (max_memory_size : Nat) : HybridCache :=
  { ttl := ttl, memory_cache := LRUMemoryCache.empty max_memory_size,
    files := [] }

/-- `HybridCache.delete` (lines 213–225).  NOTE: the method does not hash
its argument: it removes the memory entry stored under `key` literally and
unlinks `cache_dir / key` literally (`_get_file_path`, line 109–111).  A
missing file (`FileNotFoundError`) still returns `True`. -/
def delete (h : HybridCache) (key : String) : Bool × HybridCache :=
  let h2 := { h with memory_cache := h.memory_cache.remove key }
  (true, { h2 with files := dictRemove h2.files key })

/-- `HybridCache.get` (lines 113–163), with `time.time()` passed in.
The key is hashed; the memory tier is tried first; then the file tier.
A corrupt file raises inside the `try`, is caught by `except Exception`
and the call returns the default (`none`) — nothing is deleted. -/
def get (h : HybridCache) (key : String) (now : ℚ) :
    Option (List Nat) × HybridCache :=
  let hashed := md5Hex key
  let r := h.memory_cache.get hashed now
  let h1 := { h with memory_cache := r.2 }
  match r.1 with
  | some entry => (some entry.data, h1)
  | none =>
    match dictGet h1.files hashed with
    | none => (none, h1)            -- FileNotFoundError → default
    | some .corrupt => (none, h1)   -- metadata parse fails → log, default
    | some (.good expires_at access_count data) =>
      if expires_at < now then
        -- expired: `await self.delete(key)` with the HASHED key, → default
        (none, (delete h1 hashed).2)
      else
        let entry : CacheEntry :=
          { data := data, expires_at := expires_at,
            access_count := access_count + 1, last_access := now,
            size := data.length }
        (some data, { h1 with
                        memory_cache := h1.memory_cache.set hashed entry })

/-- `HybridCache.set` (lines 165–211), with `time.time()` passed in and the
success of the file write as an explicit flag (`writeOk`).  The memory tier
is updated first, unconditionally; only then is the file written; on a write
failure the temp file is removed and the call returns `False`, leaving the
memory tier updated and the old file (if any) in place. -/
def set (h : HybridCache) (key : String) (data : List Nat) (ttl : Option ℚ)
    (now : ℚ) (writeOk : Bool) : Bool × HybridCache :=
  let expires_at := now + ttl.getD h.ttl
  let entry : CacheEntry :=
    { data := data, expires_at := expires_at, access_count := 0,
      last_access := now, size := data.length }
  let hashed := md5Hex key
  let h1 := { h with memory_cache := h.memory_cache.set hashed entry }
  if writeOk then
    (true, { h1 with
               files := dictAssign h1.files hashed
                 (.good expires_at 0 data) })
  else
    (false, h1)

end HybridCache

/-- `AsyncMemoryCache` (lines 228–259) wraps an `LRUMemoryCache`; its state
is just that cache. -/
structure AsyncMemoryCache where
  memory_cache : LRUMemoryCache
  deriving Repr, DecidableEq

namespace AsyncMemoryCache

/-- `AsyncMemoryCache.get` (lines 234–237). -/
def get (c : AsyncMemoryCache) (key : String) (now : ℚ) :
    Option (List Nat) × AsyncMemoryCache :=
  let r := c.memory_cache.get key now
  ((r.1).map CacheEntry.data, { memory_cache := r.2 })

/-- `AsyncMemoryCache.set` (lines 239–250): `expires_at = time.time() +
(ttl or 3600)` — Python's `or` falls back to 3600 when `ttl` is `None` or
`0`. -/
def set (c : AsyncMemoryCache) (key : String) (data : List Nat)
    (ttl : Option ℚ) (now : ℚ) : Bool × AsyncMemoryCache :=
  let t := match ttl with
    | none => (3600 : ℚ)
    | some v => if v = 0 then 3600 else v
  let entry : CacheEntry :=
    { data := data, expires_at := now + t, access_count := 0,
      last_access := now, size := data.length }
  (true, { memory_cache := c.memory_cache.set key entry })

end AsyncMemoryCache

/-- TTL derivation of `get_cached_mpd` (lines 339–347): from the parsed
manifest's `minimumUpdatePeriod` (`none` when absent, e.g. VOD). -/
def deriveCacheTtl (mup : Option ℚ) : ℚ :=
  match mup with
  | some m => if 0 < m then m else 1
  | none => 3600

/-- Outcome of `download_file_with_retry`, the download collaborator: a
payload, a `DownloadError`, or any other exception. -/
inductive DlOutcome
  | ok (content : List Nat)
  | downloadError
  | otherError
  deriving Repr, DecidableEq

/-- What `get_cached_init_segment` can do for the caller: return a value
(possibly `None`) or let an exception escape. -/
inductive InitSegResult
  | ret (v : Option (List Nat))
  | raiseDownloadError
  | raiseOther
  deriving Repr, DecidableEq

/-- Result of `get_cached_mpd` as the caller sees it: a parsed manifest,
a re-raised `DownloadError`, or a re-raised other exception.  The parsed
manifest is abstracted to the raw payload it was built from
(`parse_mpd` / `parse_mpd_dict` live outside the two embedded files). -/
inductive MpdResult
  | ret (parsed : List Nat)
  | raiseDownloadError
  | raiseOther
  deriving Repr, DecidableEq

/-- Control flow of `get_cached_init_segment` (lines 287–302): on a cache
hit return it; otherwise download — `except Exception` catches EVERY
failure, `DownloadError` included, logs it and returns `None`. -/
def getCachedInitSegment (cached : Option (List Nat)) (dl : DlOutcome) :
    InitSegResult :=
  match cached with
  | some data => .ret (some data)
  | none =>
    match dl with
    | .ok content => .ret (some content)
    | .downloadError => .ret none
    | .otherError => .ret none

/-- State of the cached-manifest branch of `get_cached_mpd` (lines
313–327): no cached text, a cached text that re-processes fine, or a
cached text on which decoding / re-processing raises (deleted, then the
code falls through to a fresh fetch). -/
inductive MpdCached
  | miss
  | hit (parsed : List Nat)
  | hitBad
  deriving Repr, DecidableEq

/-- Control flow of `get_cached_mpd` (lines 305–362): serve a usable
cached manifest; otherwise fetch — `except DownloadError` re-raises, and
the final `except Exception` re-raises too. -/
def getCachedMpd (cached : MpdCached) (dl : DlOutcome) : MpdResult :=
  match cached with
  | .hit parsed => .ret parsed
  | .miss | .hitBad =>
    match dl with
    | .ok content => .ret content
    | .downloadError => .raiseDownloadError
    | .otherError => .raiseOther

/-! ### `mpd_processor.py` -/

/-- A Python value sitting in a segment's `extinf` slot: a finite number
(`int` or finite `float`, modelled by `ℚ`), the non-finite floats, or a
non-numeric value (e.g. a string). -/
inductive ExtV
  | fin (q : ℚ)
  | inf
  | nan
  | nonNum
  deriving Repr, DecidableEq

/-- `isinstance(x, (float, int))`: true for every float, finite or not. -/
def ExtV.isNumber : ExtV → Bool
  | .fin _ => true
  | .inf => true
  | .nan => true
  | .nonNum => false

/-- Python `>` on the numeric values above (`nan` compares `False` both
ways; `nonNum` never reaches a comparison here — the list fed to `max`
is `isNumber`-filtered). -/
def pyGt : ExtV → ExtV → Bool
  | .fin x, .fin y => x > y
  | .fin _, _ => false
  | .inf, .fin _ => true
  | .inf, _ => false
  | .nan, _ => false
  | .nonNum, _ => false

/-- Python `max(v :: vs)`: keep the current value unless a later one
compares strictly greater. -/
def pyMax (v : ExtV) (vs : List ExtV) : ExtV :=
  vs.foldl (fun acc y => if pyGt y acc then y else acc) v

/-- The exceptions the embedded fragments can raise. -/
inductive PyErr
  | overflowError
  | valueError
  | typeError
  | keyError
  deriving Repr, DecidableEq

/-- `math.ceil`: `⌈q⌉` on finite values; `OverflowError` on `inf`,
`ValueError` on `nan`, `TypeError` on a non-number. -/
def pyCeil : ExtV → Except PyErr Int
  | .fin q => .ok ⌈q⌉
  | .inf => .error .overflowError
  | .nan => .error .valueError
  | .nonNum => .error .typeError

/-- Three-digit zero padding for `fmt3`. -/
def pad3 (k : Nat) : String :=
  if k < 10 then "00" ++ toString k
  else if k < 100 then "0" ++ toString k
  else toString k

/-- Python `f"{x:.3f}"` on a finite value: three decimals.  (The tie-break
of the rounding differs from IEEE half-even in the last digit only; no
claim below depends on the digits produced.) -/
def fmt3 (q : ℚ) : String :=
  let n : Int := round (q * 1000)
  let sign := if n < 0 then "-" else ""
  let m := n.natAbs
  sign ++ toString (m / 1000) ++ "." ++ pad3 (m % 1000)

/-- `f"{segment['extinf']:.3f}"` once the value is known to be present:
`inf`/`nan` format as the words, a non-number raises `ValueError`. -/
def pyFmt3 : ExtV → Except PyErr String
  | .fin q => .ok (fmt3 q)
  | .inf => .ok "inf"
  | .nan => .ok "nan"
  | .nonNum => .error .valueError

/-- One segment record of a parsed profile, with the fields
`build_hls_playlist` reads (`none` models an absent key). -/
structure Segment where
  extinf : Option ExtV
  media : String
  number : Option Int
  hls_media_sequence_num : Option Int
  program_date_time : Option String
  deriving Repr, DecidableEq

/-- One profile record of a parsed manifest, with the fields `build_hls`
and `build_hls_playlist` read. -/
structure Profile where
  id : String
  mimeType : String
  initUrl : String
  bandwidth : Nat
  width : Nat
  height : Nat
  codecs : String
  frameRate : String
  lang : Option String
  segments : List Segment
  deriving Repr, DecidableEq

/-- The `target_duration` computation of `build_hls_playlist` (lines
187–198): filter the first profile's segments to those whose `extinf` is
present and `isinstance(…, (float, int))`; default `5` when the filtered
list is empty, else `math.ceil(max(…))` — which raises on a non-finite
maximum. -/
def targetDurationOf (segments : List Segment) : Except PyErr Int :=
  let extinf_values := segments.filterMap fun s =>
    match s.extinf with
    | some v => if v.isNumber then some v else none
    | none => none
  match extinf_values with
  | [] => .ok 5
  | v :: vs => pyCeil (pyMax v vs)

/-- The `#EXT-X-MEDIA-SEQUENCE` value (line 185):
`segments[0].get("hls_media_sequence_num", segments[0].get("number", 0))`. -/
def sequenceOf (s : Segment) : Int :=
  s.hls_media_sequence_num.getD (s.number.getD 0)

/-- The `#EXT-X-PLAYLIST-TYPE` line (lines 206–209). -/
def playlistTypeLine (isLive : Bool) : String :=
  if isLive then "#EXT-X-PLAYLIST-TYPE:EVENT" else "#EXT-X-PLAYLIST-TYPE:VOD"

/-- The body of the inner `for segment in segments` loop (lines 218–254):
an optional `#EXT-X-PROGRAM-DATE-TIME` line, the `#EXTINF` line (a missing
`extinf` key raises `KeyError`, a non-numeric one `ValueError`), then the
proxied segment URL (`encode_mediaflow_proxy_url` lives outside the two
embedded files and is passed in as `enc`). -/
def segmentLines (isLive : Bool) (enc : Profile → Segment → String)
    (profile : Profile) (acc : List String) (segment : Segment) :
    Except PyErr (List String) := do
  let pdt := segment.program_date_time.getD ""
  let acc1 := if isLive && !(pdt = "") then
      acc ++ ["#EXT-X-PROGRAM-DATE-TIME:" ++ pdt]
    else acc
  let v ← match segment.extinf with
    | none => Except.error PyErr.keyError
    | some v => Except.ok v
  let fs ← pyFmt3 v
  return acc1 ++ ["#EXTINF:" ++ fs ++ ","] ++ [enc profile segment]

/-- The body of the outer `for index, profile in enumerate(profiles)` loop
(lines 167–254).  An empty segment list hits the `continue` at line 171
BEFORE the header block, so the profile contributes nothing; the inner
empty-check of lines 175–182 (kept below for faithfulness) is
unreachable. -/
def profileStep (isLive : Bool) (enc : Profile → Segment → String)
    (acc : List String) (ip : Nat × Profile) : Except PyErr (List String) := do
  let index := ip.1
  let profile := ip.2
  let segments := profile.segments
  if segments.isEmpty then
    return acc                       -- `continue`, after a logged warning
  else
    let acc1 ←
      if index = 0 then do
        let hv : Int × Int ←
          match segments with
          | [] => Except.ok ((5 : Int), (0 : Int))  -- dead code (lines 175–182)
          | s0 :: _ => do
            let td ← targetDurationOf segments
            Except.ok (td, sequenceOf s0)
        Except.ok (acc ++
          ["#EXT-X-TARGETDURATION:" ++ toString hv.1,
           "#EXT-X-MEDIA-SEQUENCE:" ++ toString hv.2,
           playlistTypeLine isLive])
      else
        Except.ok acc
    segments.foldlM (segmentLines isLive enc profile) acc1

/-- `build_hls_playlist` (lines 148–260): the fixed header, the profile
loop, and the trailing `#EXT-X-ENDLIST` for non-live manifests.  The
result is the list of emitted lines (`"\n".join` is left as the list). -/
def buildHlsPlaylist (isLive : Bool) (profiles : List Profile)
    (enc : Profile → Segment → String) : Except PyErr (List String) := do
  let hls ← (profiles.enum).foldlM (profileStep isLive enc)
    ["#EXTM3U", "#EXT-X-VERSION:6"]
  return hls ++ (if isLive then [] else ["#EXT-X-ENDLIST"])

/-- Python `sub in mime` (substring test), as used on `profile["mimeType"]`. -/
def mimeHas (sub mime : String) : Bool :=
  decide (sub.toList <:+: mime.toList)

/-- The bucketing loop of `build_hls` (lines 118–129): one pass over the
profiles, assigning `(profile, playlist_url)` into the `video_profiles` or
`audio_profiles` dict keyed by `profile["id"]` (`elif`: a mime containing
both words lands in video). -/
def bucketStep (enc : Profile → String)
    (st : List (String × (Profile × String)) ×
          List (String × (Profile × String))) (p : Profile) :
    List (String × (Profile × String)) ×
    List (String × (Profile × String)) :=
  if mimeHas "video" p.mimeType then
    (dictAssign st.1 p.id (p, enc p), st.2)
  else if mimeHas "audio" p.mimeType then
    (st.1, dictAssign st.2 p.id (p, enc p))
  else st

/-- The full bucketing pass: `(video_profiles, audio_profiles)`. -/
def buildDicts (profiles : List Profile) (enc : Profile → String) :
    List (String × (Profile × String)) × List (String × (Profile × String)) :=
  profiles.foldl (bucketStep enc) ([], [])

/-- The `#EXT-X-MEDIA` line of one audio rendition (lines 132–136);
`i` is the enumeration index (the first value is the default track). -/
def audioMediaLine (i : Nat) (pu : Profile × String) : String :=
  let d := if i = 0 then "YES" else "NO"
  "#EXT-X-MEDIA:TYPE=AUDIO,GROUP-ID=\"audio\",NAME=\"" ++ pu.1.id ++
    "\",DEFAULT=" ++ d ++ ",AUTOSELECT=" ++ d ++ ",LANGUAGE=\"" ++
    pu.1.lang.getD "und" ++ "\",URI=\"" ++ pu.2 ++ "\""

/-- The `#EXT-X-STREAM-INF` line of one video rendition (lines 139–142). -/
def streamInfLine (pu : Profile × String) : String :=
  "#EXT-X-STREAM-INF:BANDWIDTH=" ++ toString pu.1.bandwidth ++
    ",RESOLUTION=" ++ toString pu.1.width ++ "x" ++ toString pu.1.height ++
    ",CODECS=\"" ++ pu.1.codecs ++ "\",FRAME-RATE=" ++ pu.1.frameRate ++
    ",AUDIO=\"audio\""

/-- The audio section of `build_hls` (lines 132–136): one line per entry
of the `audio_profiles` dict, in dict order. -/
def audioSection (ad : List (String × (Profile × String))) : List String :=
  ad.enum.map fun ie => audioMediaLine ie.1 ie.2.2

/-- The video section of `build_hls` (lines 139–143): one
`#EXT-X-STREAM-INF` line plus one URL line per entry of the
`video_profiles` dict, in dict order. -/
def videoSection (vd : List (String × (Profile × String))) : List String :=
  vd.flatMap fun kv => [streamInfLine kv.2, kv.2.2]

/-- `build_hls` (lines 94–145): header, audio renditions, video
renditions. -/
def buildHls (profiles : List Profile) (enc : Profile → String) :
    List String :=
  let d := buildDicts profiles enc
  ["#EXTM3U", "#EXT-X-VERSION:6"] ++ audioSection d.2 ++ videoSection d.1

/-- The last profile of the list satisfying `pred` and carrying the given
id — the spec-side description of which rendition a bucket keeps. -/
def lastMatch (pred : Profile → Bool) (id : String) :
    List Profile → Option Profile
  | [] => none
  | p :: ps =>
    match lastMatch pred id ps with
    | some q => some q
    | none => if p.id = id && pred p then some p else none

/-- The predicate deciding the video bucket (line 126). -/
def isVideoProfile (p : Profile) : Bool := mimeHas "video" p.mimeType

/-- The predicate deciding the audio bucket (line 128, the `elif`). -/
def isAudioProfile (p : Profile) : Bool :=
  !isVideoProfile p && mimeHas "audio" p.mimeType

/-- The spec-side `target_duration`: the ceiling of the maximum over the
segments whose `extinf` is a FINITE number, `5` when there is none
(`Modelled from the spec`, for comparison with `targetDurationOf`). -/
def specTargetDuration (segments : List Segment) : Int :=
  let fins := segments.filterMap fun s =>
    match s.extinf with
    | some (.fin q) => some q
    | _ => none
  match fins with
  | [] => 5
  | q :: qs => ⌈qs.foldl max q⌉

/-! ### Concrete fixtures used by the closed theorems below -/

/-- An LRU entry whose only relevant field is its size. -/
def entryOfSize (n : Nat) : CacheEntry :=
  { data := [], expires_at := 1000, access_count := 0, last_access := 0,
    size := n }

/-- A segment whose only relevant field is its `extinf`. -/
def sampleSegment (e : Option ExtV) : Segment :=
  { extinf := e, media := "seg-1.m4s", number := none,
    hls_media_sequence_num := none, program_date_time := none }

/-- A video profile with the given id and segments. -/
def sampleProfile (id : String) (segs : List Segment) : Profile :=
  { id := id, mimeType := "video/mp4", initUrl := "init.mp4",
    bandwidth := 1000, width := 640, height := 360, codecs := "avc1.4d401f",
    frameRate := "25", lang := none, segments := segs }

/-- A stand-in for `encode_mediaflow_proxy_url` on segment URLs. -/
def sampleEnc : Profile → Segment → String := fun _ _ => "segment-url"

/-- A stand-in for `encode_mediaflow_proxy_url` on playlist URLs. -/
def sampleEncP : Profile → String := fun p => "playlist-url-" ++ p.id

/-- A hybrid-cache state whose file tier holds one corrupt entry for the
logical key `"K"` and whose memory tier is empty. -/
def corruptFixture : HybridCache :=
  { ttl := 3600, memory_cache := .empty 1000,
    files := [(md5Hex "K", .corrupt)] }

/-! ### Shared lemmas about the dict model -/

theorem dictGet_assign_self {β : Type} (l : List (String × β)) (k : String)
    (v : β) : dictGet (dictAssign l k v) k = some v := by
  induction l with
  | nil => simp [dictAssign, dictGet]
  | cons p rest ih =>
    by_cases h : p.1 = k
    · simp [dictAssign, dictGet, h]
    · simp [dictAssign, dictGet, h, ih]

theorem dictGet_assign_ne {β : Type} (l : List (String × β)) (k k' : String)
    (v : β) (h : k' ≠ k) :
    dictGet (dictAssign l k v) k' = dictGet l k' := by
  have h' : ¬k = k' := fun hh => h hh.symm
  induction l with
  | nil => simp [dictAssign, dictGet, h']
  | cons p rest ih =>
    by_cases hp : p.1 = k
    · simp [dictAssign, dictGet, hp, h']
    · simp [dictAssign, dictGet, hp, ih]

theorem dictGet_eq_none_iff {β : Type} (l : List (String × β)) (k : String) :
    dictGet l k = none ↔ k ∉ l.map Prod.fst := by
  induction l with
  | nil => simp [dictGet]
  | cons p rest ih =>
    by_cases hp : p.1 = k
    · simp [dictGet, hp]
    · simp [dictGet, hp, ih]
      exact fun _ hh => hp hh.symm

theorem keys_assign {β : Type} (l : List (String × β)) (k : String) (v : β) :
    (dictAssign l k v).map Prod.fst =
      if dictHas l k then l.map Prod.fst else l.map Prod.fst ++ [k] := by
  induction l with
  | nil => simp [dictAssign, dictHas, dictGet]
  | cons p rest ih =>
    by_cases hp : p.1 = k
    · simp [dictAssign, dictHas, dictGet, hp]
    · by_cases hd : (dictGet rest k).isSome
      · simp [dictAssign, dictHas, dictGet, hp, hd, ih]
      · simp [dictAssign, dictHas, dictGet, hp, hd, ih]

theorem nodup_keys_assign {β : Type} (l : List (String × β)) (k : String)
    (v : β) (h : (l.map Prod.fst).Nodup) :
    ((dictAssign l k v).map Prod.fst).Nodup := by
  rw [keys_assign]
  by_cases hd : dictHas l k
  · simpa [hd] using h
  · have hnone : dictGet l k = none := by
      cases hg : dictGet l k with
      | none => rfl
      | some w => simp [dictHas, hg] at hd
    have hk : k ∉ l.map Prod.fst := (dictGet_eq_none_iff l k).1 hnone
    rw [if_neg hd]
    exact List.Nodup.append h (List.nodup_singleton k)
      (by simpa [List.disjoint_singleton] using hk)

theorem dictGet_none_assign {β : Type} (l : List (String × β)) (k : String)
    (v : β) (h : dictGet l k = none) : dictAssign l k v = l ++ [(k, v)] := by
  induction l with
  | nil => simp [dictAssign]
  | cons p rest ih =>
    by_cases hp : p.1 = k
    · simp [dictGet, hp] at h
    · simp [dictGet, hp] at h
      simp [dictAssign, hp, ih h]

/-! ### Shared lemmas about the LRU cache -/

theorem dictGet_none_evictLoop (l : List (String × CacheEntry)) (cs need : Int)
    (m : Nat) (k : String) (h : dictGet l k = none) :
    dictGet (LRUMemoryCache.evictLoop l cs need m).1 k = none := by
  induction l generalizing cs with
  | nil => simpa [LRUMemoryCache.evictLoop] using h
  | cons p rest ih =>
    obtain ⟨k0, e0⟩ := p
    by_cases hp : k0 = k
    · simp [dictGet, hp] at h
    · simp [dictGet, hp] at h
      by_cases hc : cs + need > (m : Int)
      · simpa [LRUMemoryCache.evictLoop, hc] using ih _ h
      · simpa [LRUMemoryCache.evictLoop, hc, dictGet, hp] using h

theorem dictGet_lru_set_self (c : LRUMemoryCache) (k : String)
    (e : CacheEntry) : dictGet (c.set k e).cache k = some e := by
  simp [LRUMemoryCache.set, dictGet_assign_self]

/-! ### Claim theorems -/

/-- C1: the claimed size bound fails on the code.  With `maxsize = 10`,
after `set "a" (size 6)`, `set "b" (size 4)`, `set "a" (size 10)` — every
inserted entry no larger than `maxsize` — the entries actually stored sum
to 14 > 10: overwriting a key subtracts its old size but leaves the stale
entry in the dict, and the eviction loop then pops that stale entry and
subtracts its size a second time, so the loop stops too early
(`_current_size` ends at 8 while the stored entries sum to 14). -/
theorem lru_set_overwrite_exceeds_maxsize :
    (entryOfSize 6).size ≤ 10 ∧ (entryOfSize 4).size ≤ 10 ∧
    (entryOfSize 10).size ≤ 10 ∧
    ((((LRUMemoryCache.empty 10).set "a" (entryOfSize 6)).set "b"
        (entryOfSize 4)).set "a" (entryOfSize 10)).maxsize = 10 ∧
    LRUMemoryCache.sizeSum
      ((((LRUMemoryCache.empty 10).set "a" (entryOfSize 6)).set "b"
        (entryOfSize 4)).set "a" (entryOfSize 10)) = 14 ∧
    ((((LRUMemoryCache.empty 10).set "a" (entryOfSize 6)).set "b"
        (entryOfSize 4)).set "a" (entryOfSize 10)).current_size = 8 := by
  decide

/-- C8 counterexample: overwriting a present key does NOT move it to the
most-recent slot.  With `maxsize = 100`: `set "a"`, `set "b"`, then
`set "a"` again — afterwards the most-recent key is still `"b"` and the
next eviction victim (the head) is `"a"` itself, the key just set, even
though another key exists. -/
theorem lru_overwrite_keeps_stale_position :
    ((((LRUMemoryCache.empty 100).set "a" (entryOfSize 1)).set "b"
        (entryOfSize 1)).set "a" (entryOfSize 2)).lastKey ≠ some "a" ∧
    ((((LRUMemoryCache.empty 100).set "a" (entryOfSize 1)).set "b"
        (entryOfSize 1)).set "a" (entryOfSize 2)).lastKey = some "b" ∧
    ((((LRUMemoryCache.empty 100).set "a" (entryOfSize 1)).set "b"
        (entryOfSize 1)).set "a" (entryOfSize 2)).headKey = some "a" := by
  decide

/-- C8 amended: after `set k e` where `k` was NOT already present, `k` is
the most-recent entry of the store (when `k` was present it keeps its old
position instead — see the counterexample). -/
theorem lru_set_new_key_most_recent (c : LRUMemoryCache) (k : String)
    (e : CacheEntry) (h : dictGet c.cache k = none) :
    (c.set k e).lastKey = some k := by
  simp only [LRUMemoryCache.set, LRUMemoryCache.lastKey, h]
  rw [dictGet_none_assign _ _ _ (dictGet_none_evictLoop _ _ _ _ _ h)]
  simp

/-- Witness for the C8 amended theorem at a concrete input. -/
theorem lru_set_new_key_most_recent_witness :
    dictGet (LRUMemoryCache.empty 10).cache "a" = none ∧
    ((LRUMemoryCache.empty 10).set "a" (entryOfSize 1)).lastKey = some "a" :=
  ⟨by decide,
   lru_set_new_key_most_recent (LRUMemoryCache.empty 10) "a" (entryOfSize 1)
     (by decide)⟩

/-- C2: `HybridCache.delete` does not hash its key, so called with the
logical key `"K"` after `set "K" [7]` it removes nothing: it still returns
`True`, the file tier still holds the entry under `md5_hex("K")`, and a
subsequent `get "K"` is a HIT returning `[7]` instead of the claimed
miss. -/
theorem hybrid_delete_logical_key_is_noop :
    ((((HybridCache.empty 3600 1000).set "K" [7] none 0 true).2.delete
        "K")).1 = true ∧
    (((((HybridCache.empty 3600 1000).set "K" [7] none 0 true).2.delete
        "K")).2.get "K" 1).1 = some [7] ∧
    dictHas ((((HybridCache.empty 3600 1000).set "K" [7] none 0
        true).2.delete "K")).2.files (md5Hex "K") = true ∧
    md5Hex "K" ≠ "K" := by
  refine ⟨rfl, ?_, by decide, by decide⟩
  simp [HybridCache.get, HybridCache.delete, HybridCache.set,
    LRUMemoryCache.get, LRUMemoryCache.set, LRUMemoryCache.remove,
    LRUMemoryCache.empty, HybridCache.empty, dictGet, dictAssign,
    dictRemove, md5Hex, LRUMemoryCache.evictLoop]

/-- C7 counterexample: on a cold cache, a `DownloadError` from the
download collaborator does NOT escape `get_cached_init_segment` — the
bare `except Exception` catches it and the function returns `None`. -/
theorem init_segment_swallows_download_error :
    getCachedInitSegment none .downloadError ≠ .raiseDownloadError ∧
    getCachedInitSegment none .downloadError = .ret none := by
  decide

/-- C7 amended: `get_cached_mpd` re-raises `DownloadError` on a
cold-cache fetch (both on a plain miss and after a bad cached entry),
while `get_cached_init_segment` catches it and returns `None`. -/
theorem download_error_propagation :
    getCachedMpd .miss .downloadError = .raiseDownloadError ∧
    getCachedMpd .hitBad .downloadError = .raiseDownloadError ∧
    getCachedInitSegment none .downloadError = .ret none := by
  decide

/-- C3 counterexample: with a single profile whose segment list is empty,
`build_hls_playlist` hits the `continue` BEFORE the header block, so the
output is just the global prelude (plus `#EXT-X-ENDLIST` for VOD) — the
claimed default headers `#EXT-X-TARGETDURATION:5`,
`#EXT-X-MEDIA-SEQUENCE:0` and the playlist-type line are absent. -/
theorem empty_first_profile_emits_no_headers :
    buildHlsPlaylist false [sampleProfile "p1" []] sampleEnc =
      .ok ["#EXTM3U", "#EXT-X-VERSION:6", "#EXT-X-ENDLIST"] ∧
    "#EXT-X-TARGETDURATION:5" ∉
      ["#EXTM3U", "#EXT-X-VERSION:6", "#EXT-X-ENDLIST"] ∧
    "#EXT-X-MEDIA-SEQUENCE:0" ∉
      ["#EXTM3U", "#EXT-X-VERSION:6", "#EXT-X-ENDLIST"] ∧
    playlistTypeLine false ∉
      ["#EXTM3U", "#EXT-X-VERSION:6", "#EXT-X-ENDLIST"] := by
  exact ⟨rfl, by decide, by decide, by decide⟩

/-- C3 amended: a first profile with an empty segment list is skipped
ENTIRELY — no headers (default or otherwise), no playlist-type line and
no `#EXTINF` lines are emitted for it; with a single such profile the
playlist is exactly the two prelude lines plus `#EXT-X-ENDLIST` when not
live. -/
theorem skip_empty_first_profile (isLive : Bool) (p : Profile)
    (enc : Profile → Segment → String) (h : p.segments = []) :
    buildHlsPlaylist isLive [p] enc =
      .ok (["#EXTM3U", "#EXT-X-VERSION:6"] ++
        if isLive then [] else ["#EXT-X-ENDLIST"]) := by
  cases isLive <;>
    simp [buildHlsPlaylist, profileStep, List.enum, List.enumFrom, h,
      pure, Except.pure, bind, Except.bind]

/-- Witness for the C3 amended theorem at a concrete input. -/
theorem skip_empty_first_profile_witness :
    (sampleProfile "p1" []).segments = [] ∧
    buildHlsPlaylist false [sampleProfile "p1" []] sampleEnc =
      .ok (["#EXTM3U", "#EXT-X-VERSION:6"] ++
        if false then [] else ["#EXT-X-ENDLIST"]) :=
  ⟨rfl, skip_empty_first_profile false (sampleProfile "p1" []) sampleEnc rfl⟩

/-- C4 counterexample: a `get` whose file-tier entry is corrupt (metadata
parse failure) returns the default — a miss — but the corrupt entry is
NOT deleted: the cache state is unchanged and the file is still there. -/
theorem corrupt_entry_kept_on_get :
    (corruptFixture.get "K" 5).1 = none ∧
    (corruptFixture.get "K" 5).2.files = corruptFixture.files ∧
    dictHas (corruptFixture.get "K" 5).2.files (md5Hex "K") = true := by
  decide

/-- C4 amended: whenever the memory tier misses and the file tier holds a
corrupt entry, `get` reports a miss (returns the default) and leaves the
cache — memory, files, everything — unchanged; the entry is only deleted
by `get` when it is expired, not when it is corrupt. -/
theorem corrupt_get_miss_no_delete (h : HybridCache) (k : String) (now : ℚ)
    (hm : dictGet h.memory_cache.cache (md5Hex k) = none)
    (hf : dictGet h.files (md5Hex k) = some .corrupt) :
    (h.get k now).1 = none ∧ (h.get k now).2 = h := by
  simp [HybridCache.get, LRUMemoryCache.get, hm, hf]

/-- Witness for the C4 amended theorem at a concrete input. -/
theorem corrupt_get_miss_no_delete_witness :
    (corruptFixture.get "K" 5).1 = none ∧
    (corruptFixture.get "K" 5).2 = corruptFixture :=
  corrupt_get_miss_no_delete corruptFixture "K" 5 (by decide) (by decide)

/-- C5: the TTL a fresh manifest is cached with is `minimumUpdatePeriod`
when present and positive, 1 second when present and non-positive, and
3600 seconds when absent; and a manifest cached with
`minimumUpdatePeriod = 5` is a hit 4 seconds later and a miss 6 seconds
later. -/
theorem mpd_ttl_derivation_and_expiry :
    (∀ m : ℚ, deriveCacheTtl (some m) = if 0 < m then m else 1) ∧
    deriveCacheTtl none = 3600 ∧
    (∀ (c : AsyncMemoryCache) (u : String) (p : List Nat) (t : ℚ),
      (((c.set u p (some (deriveCacheTtl (some 5))) t).2).get u
        (t + 4)).1 = some p ∧
      (((c.set u p (some (deriveCacheTtl (some 5))) t).2).get u
        (t + 6)).1 = none) := by
  refine ⟨fun m => rfl, rfl, fun c u p t => ?_⟩
  have httl : deriveCacheTtl (some 5) = 5 := by norm_num [deriveCacheTtl]
  rw [httl]
  have hset : (if (5 : ℚ) = 0 then (3600 : ℚ) else 5) = 5 := by norm_num
  have h45 : t + 4 < t + 5 := by linarith
  have h65 : ¬t + 6 < t + 5 := by linarith
  constructor
  · simp [AsyncMemoryCache.set, AsyncMemoryCache.get, LRUMemoryCache.get,
      dictGet_lru_set_self, hset, h45]
  · simp [AsyncMemoryCache.set, AsyncMemoryCache.get, LRUMemoryCache.get,
      dictGet_lru_set_self, hset, h65]

/-- C6 counterexample: a first profile whose single segment has
`extinf = float("inf")` — numeric but not finite.  The spec-side value
(ceiling of the maximum over FINITE extinfs, default 5) is 5, but the
code passes `inf` through its `isinstance` filter and `math.ceil(inf)`
raises `OverflowError`: the build fails instead of emitting
`#EXT-X-TARGETDURATION:5`. -/
theorem target_duration_inf_raises :
    targetDurationOf [sampleSegment (some .inf)] = .error .overflowError ∧
    specTargetDuration [sampleSegment (some .inf)] = 5 ∧
    buildHlsPlaylist false [sampleProfile "p1" [sampleSegment (some .inf)]]
      sampleEnc = .error .overflowError := by
  exact ⟨rfl, rfl, rfl⟩

theorem pyMax_step_fin (q y : ℚ) :
    (if pyGt (.fin y) (.fin q) then ExtV.fin y else ExtV.fin q) =
      .fin (max q y) := by
  by_cases hlt : q < y
  · simp [pyGt, hlt, max_eq_right hlt.le]
  · simp [pyGt, hlt, max_eq_left (not_lt.1 hlt)]

theorem pyMax_fin (q : ℚ) (qs : List ℚ) :
    pyMax (.fin q) (qs.map ExtV.fin) = .fin (qs.foldl max q) := by
  induction qs generalizing q with
  | nil => rfl
  | cons y ys ih =>
    have h1 : pyMax (.fin q) ((y :: ys).map ExtV.fin) =
        pyMax (.fin (max q y)) (ys.map ExtV.fin) := by
      simp only [List.map_cons, pyMax, List.foldl_cons, pyMax_step_fin]
    rw [h1, ih, List.foldl_cons]

theorem isNumber_fin (q : ℚ) : (ExtV.fin q).isNumber = true := rfl

theorem isNumber_nonNum : ExtV.nonNum.isNumber = false := rfl

theorem numeric_filter_eq_fin_map (segs : List Segment)
    (h : ∀ s ∈ segs, s.extinf ≠ some .inf ∧ s.extinf ≠ some .nan) :
    (segs.filterMap fun s =>
      match s.extinf with
      | some v => if v.isNumber then some v else none
      | none => none) =
    (segs.filterMap fun s =>
      match s.extinf with
      | some (.fin q) => some q
      | _ => none).map ExtV.fin := by
  induction segs with
  | nil => rfl
  | cons s rest ih =>
    have hs := h s (by simp)
    have hr : ∀ x ∈ rest, x.extinf ≠ some .inf ∧ x.extinf ≠ some .nan :=
      fun x hx => h x (by simp [hx])
    cases he : s.extinf with
    | none => simp [List.filterMap_cons, he, ih hr]
    | some v =>
      cases v with
      | fin q => simp [List.filterMap_cons, he, isNumber_fin, ih hr]
      | inf => exact absurd he hs.1
      | nan => exact absurd he hs.2
      | nonNum => simp [List.filterMap_cons, he, isNumber_nonNum, ih hr]

/-- C6 amended: when no segment of the first profile carries a non-finite
numeric `extinf` (`inf`/`nan`), the emitted target duration matches the
spec's value: the ceiling of the maximum finite `extinf`, or 5 when there
is none; with a non-finite value present the call raises instead. -/
theorem target_duration_matches_spec_on_finite (segs : List Segment)
    (h : ∀ s ∈ segs, s.extinf ≠ some .inf ∧ s.extinf ≠ some .nan) :
    targetDurationOf segs = .ok (specTargetDuration segs) := by
  simp only [targetDurationOf, specTargetDuration]
  rw [numeric_filter_eq_fin_map segs h]
  cases hf : segs.filterMap (fun s =>
      match s.extinf with
      | some (.fin q) => some q
      | _ => none) with
  | nil => simp
  | cons q qs => simp [pyMax_fin, pyCeil]

/-- Witness for the C6 amended theorem at a concrete input. -/
theorem target_duration_matches_spec_witness :
    targetDurationOf
        [sampleSegment (some (.fin (7 / 2))), sampleSegment (some .nonNum)] =
      .ok (specTargetDuration
        [sampleSegment (some (.fin (7 / 2))), sampleSegment (some .nonNum)]) :=
  target_duration_matches_spec_on_finite _ (by decide)

/-- C9: when the file-tier write of `HybridCache.set` fails, the call
returns `False` and the file tier is untouched, but the payload was
already inserted into the memory LRU beforehand, so a later `get` of the
same key (before expiry) still returns it: the two tiers diverge. -/
theorem hybrid_set_memory_before_file (h : HybridCache) (k : String)
    (p : List Nat) (t1 t2 : ℚ) (ht : t2 < t1 + h.ttl) :
    (h.set k p none t1 false).1 = false ∧
    (h.set k p none t1 false).2.files = h.files ∧
    ((h.set k p none t1 false).2.get k t2).1 = some p := by
  refine ⟨rfl, rfl, ?_⟩
  simp [HybridCache.set, HybridCache.get, LRUMemoryCache.get,
    dictGet_lru_set_self, ht]

/-- Witness for the C9 theorem at a concrete input. -/
theorem hybrid_set_memory_before_file_witness :
    ((HybridCache.empty 3600 100).set "K" [9] none 0 false).1 = false ∧
    ((HybridCache.empty 3600 100).set "K" [9] none 0 false).2.files =
      (HybridCache.empty 3600 100).files ∧
    (((HybridCache.empty 3600 100).set "K" [9] none 0 false).2.get "K"
      1).1 = some [9] :=
  hybrid_set_memory_before_file (HybridCache.empty 3600 100) "K" [9] 0 1
    (by norm_num [HybridCache.empty])

theorem bucketFold_video_lookup (enc : Profile → String) (ps : List Profile)
    (vd ad : List (String × (Profile × String))) (id : String) :
    dictGet (ps.foldl (bucketStep enc) (vd, ad)).1 id =
      match lastMatch isVideoProfile id ps with
      | some p => some (p, enc p)
      | none => dictGet vd id := by
  induction ps generalizing vd ad with
  | nil => rfl
  | cons p rest ih =>
    rw [List.foldl_cons]
    by_cases hv : mimeHas "video" p.mimeType
    · rw [show bucketStep enc (vd, ad) p = (dictAssign vd p.id (p, enc p), ad)
        from by simp [bucketStep, hv]]
      rw [ih]
      cases hlm : lastMatch isVideoProfile id rest with
      | some q => simp [lastMatch, hlm]
      | none =>
        simp only [lastMatch, hlm]
        by_cases hid : p.id = id
        · subst hid
          simp [isVideoProfile, hv, dictGet_assign_self]
        · simp [isVideoProfile, hv, hid,
            dictGet_assign_ne vd p.id id _ (fun hh => hid hh.symm)]
    · by_cases ha : mimeHas "audio" p.mimeType
      · rw [show bucketStep enc (vd, ad) p = (vd, dictAssign ad p.id (p, enc p))
          from by simp [bucketStep, hv, ha]]
        rw [ih]
        cases hlm : lastMatch isVideoProfile id rest with
        | some q => simp [lastMatch, hlm]
        | none => simp [lastMatch, hlm, isVideoProfile, hv]
      · rw [show bucketStep enc (vd, ad) p = (vd, ad)
          from by simp [bucketStep, hv, ha]]
        rw [ih]
        cases hlm : lastMatch isVideoProfile id rest with
        | some q => simp [lastMatch, hlm]
        | none => simp [lastMatch, hlm, isVideoProfile, hv]

theorem bucketFold_audio_lookup (enc : Profile → String) (ps : List Profile)
    (vd ad : List (String × (Profile × String))) (id : String) :
    dictGet (ps.foldl (bucketStep enc) (vd, ad)).2 id =
      match lastMatch isAudioProfile id ps with
      | some p => some (p, enc p)
      | none => dictGet ad id := by
  induction ps generalizing vd ad with
  | nil => rfl
  | cons p rest ih =>
    rw [List.foldl_cons]
    by_cases hv : mimeHas "video" p.mimeType
    · rw [show bucketStep enc (vd, ad) p = (dictAssign vd p.id (p, enc p), ad)
        from by simp [bucketStep, hv]]
      rw [ih]
      cases hlm : lastMatch isAudioProfile id rest with
      | some q => simp [lastMatch, hlm]
      | none => simp [lastMatch, hlm, isAudioProfile, isVideoProfile, hv]
    · by_cases ha : mimeHas "audio" p.mimeType
      · rw [show bucketStep enc (vd, ad) p = (vd, dictAssign ad p.id (p, enc p))
          from by simp [bucketStep, hv, ha]]
        rw [ih]
        cases hlm : lastMatch isAudioProfile id rest with
        | some q => simp [lastMatch, hlm]
        | none =>
          simp only [lastMatch, hlm]
          by_cases hid : p.id = id
          · subst hid
            simp [isAudioProfile, isVideoProfile, hv, ha, dictGet_assign_self]
          · simp [isAudioProfile, isVideoProfile, hv, ha, hid,
              dictGet_assign_ne ad p.id id _ (fun hh => hid hh.symm)]
      · rw [show bucketStep enc (vd, ad) p = (vd, ad)
          from by simp [bucketStep, hv, ha]]
        rw [ih]
        cases hlm : lastMatch isAudioProfile id rest with
        | some q => simp [lastMatch, hlm]
        | none => simp [lastMatch, hlm, isAudioProfile, isVideoProfile, hv, ha]

theorem bucketFold_nodup (enc : Profile → String) (ps : List Profile)
    (vd ad : List (String × (Profile × String)))
    (h1 : (vd.map Prod.fst).Nodup) (h2 : (ad.map Prod.fst).Nodup) :
    ((ps.foldl (bucketStep enc) (vd, ad)).1.map Prod.fst).Nodup ∧
    ((ps.foldl (bucketStep enc) (vd, ad)).2.map Prod.fst).Nodup := by
  induction ps generalizing vd ad with
  | nil => exact ⟨h1, h2⟩
  | cons p rest ih =>
    rw [List.foldl_cons]
    by_cases hv : mimeHas "video" p.mimeType
    · rw [show bucketStep enc (vd, ad) p = (dictAssign vd p.id (p, enc p), ad)
        from by simp [bucketStep, hv]]
      exact ih _ _ (nodup_keys_assign _ _ _ h1) h2
    · by_cases ha : mimeHas "audio" p.mimeType
      · rw [show bucketStep enc (vd, ad) p = (vd, dictAssign ad p.id (p, enc p))
          from by simp [bucketStep, hv, ha]]
        exact ih _ _ h1 (nodup_keys_assign _ _ _ h2)
      · rw [show bucketStep enc (vd, ad) p = (vd, ad)
          from by simp [bucketStep, hv, ha]]
        exact ih _ _ h1 h2

theorem videoSection_length (vd : List (String × (Profile × String))) :
    (videoSection vd).length = 2 * vd.length := by
  induction vd with
  | nil => rfl
  | cons e rest ih =>
    simp only [videoSection] at ih ⊢
    rw [List.flatMap_cons, List.length_append, ih]
    simp only [List.length_cons, List.length_nil]
    omega

/-- C10: `build_hls` buckets profiles into dicts keyed by `profile["id"]`
before emission.  The dict keys are without duplicates; the entry stored
under an id is the LAST input profile with that id landing in that bucket;
the audio section emits exactly one `#EXT-X-MEDIA` line per audio-dict
entry and the video section exactly one `#EXT-X-STREAM-INF` record (two
lines) per video-dict entry; and the whole output is the header followed
by those two sections. -/
theorem build_hls_one_rendition_per_id (profiles : List Profile)
    (enc : Profile → String) :
    ((buildDicts profiles enc).1.map Prod.fst).Nodup ∧
    ((buildDicts profiles enc).2.map Prod.fst).Nodup ∧
    (∀ id, dictGet (buildDicts profiles enc).1 id =
      (lastMatch isVideoProfile id profiles).map fun p => (p, enc p)) ∧
    (∀ id, dictGet (buildDicts profiles enc).2 id =
      (lastMatch isAudioProfile id profiles).map fun p => (p, enc p)) ∧
    (audioSection (buildDicts profiles enc).2).length =
      (buildDicts profiles enc).2.length ∧
    (videoSection (buildDicts profiles enc).1).length =
      2 * (buildDicts profiles enc).1.length ∧
    buildHls profiles enc = ["#EXTM3U", "#EXT-X-VERSION:6"] ++
      audioSection (buildDicts profiles enc).2 ++
      videoSection (buildDicts profiles enc).1 := by
  obtain ⟨hn1, hn2⟩ := bucketFold_nodup enc profiles [] [] (by simp) (by simp)
  refine ⟨by simpa [buildDicts] using hn1, by simpa [buildDicts] using hn2,
    fun id => ?_, fun id => ?_, ?_, ?_, rfl⟩
  · simp only [buildDicts]
    rw [bucketFold_video_lookup]
    cases lastMatch isVideoProfile id profiles <;> simp [dictGet]
  · simp only [buildDicts]
    rw [bucketFold_audio_lookup]
    cases lastMatch isAudioProfile id profiles <;> simp [dictGet]
  · simp [audioSection]
  · exact videoSection_length _

end Mediaflow
